import Mathlib

/-!
# pubsuboutput: a shallow embedding of the GCP PubSub output client

The embedding follows `pubsuboutput.go`: `defaultConfig`, `pubsubClient.Connect`,
`pubsubClient.Close`, `pubsubClient.String` and `pubsubClient.Publish`.

Calls into collaborators (the metrics observer, the batch, the compressor pool,
the gzip writer, the byte buffer and the pubsub topic) are recorded, in program
order, in a trace of `Effect`s.  The libraries the code calls are not part of
the repository; what each of them answers is an input of the model (`Env`,
`GzipWriter`, the dial and teardown outcomes of `Connect` and `Close`).
-/

namespace Pubsuboutput

/-- A byte string; every element stands for one octet. -/
abbrev Bytes := List Nat

/-! ## Configuration -/

/-- The `config` struct. -/
structure config where
  Topic : String
  ProjectID : String
  CredentialsFile : String
  CredentialsJSON : Bytes
  MaxRetries : Int
  BulkMaxSize : Int
  deriving DecidableEq, Repr

/-- The function `defaultConfig`: the zero value with `BulkMaxSize = 4096`. -/
def defaultConfig : config :=
  { Topic := "", ProjectID := "", CredentialsFile := "", CredentialsJSON := [],
    MaxRetries := 0, BulkMaxSize := 4096 }

/-! ## Connection lifecycle -/

/-- The two `option.ClientOption` values `Connect` can build. -/
inductive ClientOption where
  | WithCredentialsFile (path : String)
  | WithCredentialsJSON (json : Bytes)
  deriving DecidableEq, Repr

/-- A `*pubsub.Client`: the connection `id` tells one connection from another. -/
structure Client where
  id : Nat
  project : String
  opts : List ClientOption
  deriving DecidableEq, Repr

/-- A `*pubsub.Topic`: a channel name bound to the connection `conn`. -/
structure Topic where
  conn : Nat
  name : String
  deriving DecidableEq, Repr

/-- The network as `Connect` and `Close` see it: `nextId` is the identity the next
connection gets (so it also counts the connections established so far), `dials`
counts the calls of `pubsub.NewClient`, `stopped` and `closed` list the
connections whose topic was stopped and which were closed. -/
structure Net where
  nextId : Nat
  dials : Nat
  stopped : List Nat
  closed : List Nat
  deriving DecidableEq, Repr

/-- The `pubsubClient` struct (the observer is the trace of `Publish`). -/
structure pubsubClient where
  client : Option Client
  topic : Option Topic
  name : String
  config : config
  deriving DecidableEq, Repr

/-- The error `Connect` returns: "failed to create pubsub client" wrapping `cause`. -/
inductive ConnectError where
  | createClient (cause : String)
  deriving DecidableEq, Repr

/-- The call `pubsub.NewClient(ctx, projectID, opts...)`: `dial` is what the
library answers (`none`: a connection, `some e`: the error `e`). -/
def NewClient (dial : Option String) (net : Net) (project : String)
    (opts : List ClientOption) : Except String Client × Net :=
  match dial with
  | some e => (.error e, { net with dials := net.dials + 1 })
  | none =>
    (.ok { id := net.nextId, project := project, opts := opts },
     { net with dials := net.dials + 1, nextId := net.nextId + 1 })

/-- The method `(*pubsub.Client).Topic`. -/
def Client.Topic (c : Client) (name : String) : Topic :=
  { conn := c.id, name := name }

/-- The options `Connect` passes: the credentials file when one is set,
else the inline credentials when there are any, else none. -/
def connectOpts (c : config) : List ClientOption :=
  if c.CredentialsFile ≠ "" then [.WithCredentialsFile c.CredentialsFile]
  else if c.CredentialsJSON.length > 0 then [.WithCredentialsJSON c.CredentialsJSON]
  else []

/-- The method `pubsubClient.Connect`.  Returns the error (`none` for `nil`),
the client afterwards and the network afterwards. -/
def Connect (dial : Option String) (net : Net) (p : pubsubClient) :
    Option ConnectError × pubsubClient × Net :=
  match p.client with
  | some _ => (none, p, net)
  | none =>
    match NewClient dial net p.config.ProjectID (connectOpts p.config) with
    | (.error e, net1) => (some (.createClient e), p, net1)
    | (.ok client, net1) =>
      (none, { p with client := some client, topic := some (client.Topic p.config.Topic) }, net1)

/-- The method `pubsubClient.Close`; `teardown` is what `p.client.Close()` answers.
The result is `none` when the code dereferences a nil pointer (`p.topic.Stop()` or
`p.client.Close()` on a client that holds no handle). -/
def Close (teardown : Option String) (net : Net) (p : pubsubClient) :
    Option (Option String × pubsubClient × Net) :=
  match p.topic with
  | none => none
  | some t =>
    let net1 := { net with stopped := t.conn :: net.stopped }
    match p.client with
    | none => none
    | some c =>
      let net2 := { net1 with closed := c.id :: net1.closed }
      some (teardown, { p with client := none }, net2)

/-- The method `pubsubClient.String`. -/
def pubsubClient.String (p : pubsubClient) : String := p.name

/-! ## Publish -/

/-- A `context.Context`: `background` is `context.Background()`, never canceled;
`caller canceled` is a context of the caller, `canceled` telling whether it is
canceled while the result of the publish is awaited. -/
inductive Ctx where
  | background
  | caller (canceled : Bool)
  deriving DecidableEq, Repr

/-- One call into a collaborator. -/
inductive Effect where
  | NewBatch (n : Nat)
  | Dropped (n : Nat)
  | Failed (n : Nat)
  | Drop
  | Retry
  | ACK
  | PoolGet (created : Bool)
  | PoolPut
  | GzReset
  | GzWrite (p : Bytes)
  | GzClose
  | BufWrite (p : Bytes)
  | TopicPublish (ctx : Ctx) (data : Bytes)
  | ResultGet (ctx : Ctx)
  deriving DecidableEq, Repr

/-- The error `Publish` returns. -/
inductive PublishError where
  | encode (cause : String)
  | newline (cause : String)
  | compress (cause : String)
  deriving DecidableEq, Repr

/-- A `gzip.Writer` as the underlying writer sees it: `init` is the state after
`Reset`, `write` and `close` give the bytes the writer hands to the underlying
writer during `Write` and `Close` (a compressor may keep input back until later). -/
structure GzipWriter where
  State : Type
  init : State
  write : State → Bytes → State × Bytes
  close : State → Bytes

/-- What the libraries answer during one call of `Publish`.
`marshal` is the JSON encoding of a record (or its failure), `poolIgnored` says
that `sync.Pool.Get` treats the pool as empty (it may), `closeErr` is the error
of `gz.Close()` and `remoteErr` the error the remote gives for the message. -/
structure Env (ε : Type) where
  marshal : ε → Except String Bytes
  gz : GzipWriter
  poolIgnored : Bool
  closeErr : Option String
  remoteErr : Option String

/-- The method `sync.Pool.Get` on a pool holding `pool` writers, with the `New` of
`gzipPool`: the writers left in the pool, and whether `New` made the result. -/
def poolGet (pool : Nat) (ignored : Bool) : Nat × Bool :=
  if pool = 0 ∨ ignored = true then (pool, true) else (pool - 1, false)

/-- The method `sync.Pool.Put`. -/
def poolPut (pool : Nat) : Nat := pool + 1

/-- The method `bytes.Buffer.Write`: appends; its error is always nil. -/
def bufferWrite (buf p : Bytes) : Bytes × Option String := (buf ++ p, none)

/-- The method `(*pubsub.PublishResult).Get(ctx)`: blocks until the publish call
completes or `ctx` is done. -/
def resultGet (ctx : Ctx) (remote : Option String) : Option String :=
  match ctx with
  | .caller true => some "context canceled"
  | _ => remote

/-- The newline byte. -/
def nl : Nat := 10

/-- The `for i := range events` loop of `Publish`, from the writer state `s` and the
buffer contents `buf`: the effects, and either the error returned from inside the
loop or the writer state and buffer contents when the loop ends.
`enc.Encode(e)` hands the JSON of `e` followed by a newline to `gz` in one write,
and writes nothing when `e` does not marshal; the writes of `gz` go to `buf`.
The `Write` of the buffer is `bw`. -/
def encodeLoop {ε : Type} (bw : Bytes → Bytes → Bytes × Option String) (env : Env ε)
    (n : Nat) :
    List ε → env.gz.State → Bytes → List Effect × Except PublishError (env.gz.State × Bytes)
  | [], s, buf => ([], .ok (s, buf))
  | e :: rest, s, buf =>
    match env.marshal e with
    | .error c => ([.Dropped n, .Drop], .error (.encode c))
    | .ok js =>
      let p := js ++ [nl]
      let w := env.gz.write s p
      match bw (buf ++ w.2) [nl] with
      | (_, some c) =>
        ([.GzWrite p, .BufWrite [nl], .Failed n, .Retry], .error (.newline c))
      | (buf2, none) =>
        let r := encodeLoop bw env n rest w.1 buf2
        (.GzWrite p :: .BufWrite [nl] :: r.1, r.2)

/-- What one call of `Publish` leaves behind. -/
structure Outcome where
  trace : List Effect
  err : Option PublishError
  pool : Nat
  deriving DecidableEq, Repr

/-- The body of `pubsubClient.Publish`, of a client whose topic is bound, on the batch
whose `Events()` are `events`, with `pool` writers in `gzipPool` and with `bw` as the
`Write` of the buffer.  The context given by the caller is not used by the code: both
`p.topic.Publish` and `res.Get` get `context.Background()`.  The deferred
`gzipPool.Put(gz)` runs last. -/
def PublishWith {ε : Type} (bw : Bytes → Bytes → Bytes × Option String) (_ctx : Ctx)
    (env : Env ε) (pool : Nat) (events : List ε) : Outcome :=
  let n := events.length
  if n = 0 then
    { trace := [.NewBatch n], err := none, pool := pool }
  else
    let g := poolGet pool env.poolIgnored
    let pre : List Effect := [.NewBatch n, .PoolGet g.2, .GzReset]
    let loop := encodeLoop bw env n events env.gz.init []
    match loop.2 with
    | .error e =>
      { trace := pre ++ loop.1 ++ [.PoolPut], err := some e, pool := poolPut g.1 }
    | .ok (s, buf) =>
      match env.closeErr with
      | some c =>
        { trace := pre ++ loop.1 ++ [.GzClose, .Failed n, .Retry, .PoolPut],
          err := some (.compress c), pool := poolPut g.1 }
      | none =>
        let data := buf ++ env.gz.close s
        let send : List Effect := [.GzClose, .TopicPublish .background data, .ResultGet .background]
        match resultGet .background env.remoteErr with
        | some _ =>
          { trace := pre ++ loop.1 ++ send ++ [.Failed n, .Retry, .ACK, .PoolPut],
            err := none, pool := poolPut g.1 }
        | none =>
          { trace := pre ++ loop.1 ++ send ++ [.ACK, .PoolPut],
            err := none, pool := poolPut g.1 }

/-- The method `pubsubClient.Publish`: its buffer is a `bytes.Buffer`. -/
def Publish {ε : Type} (ctx : Ctx) (env : Env ε) (pool : Nat) (events : List ε) : Outcome :=
  PublishWith bufferWrite ctx env pool events

/-- A buffer whose `Write` fails, to run the branch of `Publish` a `bytes.Buffer`
never takes. -/
def failingWrite (buf _p : Bytes) : Bytes × Option String := (buf, some "short write")

/-- A sample configuration. -/
def sampleConfig : config :=
  { defaultConfig with Topic := "logs", ProjectID := "demo" }

/-- A connection made earlier, with identity 0. -/
def sampleClient : Client := { id := 0, project := "demo", opts := [] }

/-- A client that holds the connection `sampleClient` and its topic. -/
def sampleConnected : pubsubClient :=
  { client := some sampleClient, topic := some (sampleClient.Topic "logs"),
    name := "pubsub:demo/logs", config := sampleConfig }

/-- A client that was never connected. -/
def sampleDisconnected : pubsubClient :=
  { client := none, topic := none, name := "pubsub:demo/logs", config := sampleConfig }

/-- The network before any dial. -/
def sampleFreshNet : Net := { nextId := 0, dials := 0, stopped := [], closed := [] }

/-- The network after one connection was established. -/
def sampleNet : Net := { nextId := 1, dials := 1, stopped := [], closed := [] }

/-! ## Reading a trace -/

/-- The terminal operations of the batch. -/
def isSignal : Effect → Bool
  | .Drop => true
  | .Retry => true
  | .ACK => true
  | _ => false

/-- The calls on the metrics observer. -/
def isMetric : Effect → Bool
  | .NewBatch _ => true
  | .Dropped _ => true
  | .Failed _ => true
  | _ => false

/-- The calls that reach the remote: `topic.Publish` and the wait for its result. -/
def isRemote : Effect → Bool
  | .TopicPublish _ _ => true
  | .ResultGet _ => true
  | _ => false

/-- The calls that go through the compressor. -/
def isGzUse : Effect → Bool
  | .GzWrite _ => true
  | .GzClose => true
  | _ => false

/-- The terminal batch signals of a trace, in order. -/
def signals (t : List Effect) : List Effect := t.filter isSignal

/-- The observer calls of a trace, in order. -/
def metrics (t : List Effect) : List Effect := t.filter isMetric

/-- The byte strings written through the gzip writer, in order. -/
def gzWrites : List Effect → List Bytes
  | [] => []
  | .GzWrite p :: t => p :: gzWrites t
  | _ :: t => gzWrites t

/-- The bodies of the messages handed to `topic.Publish`, in order. -/
def published : List Effect → List Bytes
  | [] => []
  | .TopicPublish _ d :: t => d :: published t
  | _ :: t => published t

/-- Whether `enc.Encode` succeeds on the record. -/
def serializes {ε : Type} (env : Env ε) (e : ε) : Bool :=
  match env.marshal e with
  | .ok _ => true
  | .error _ => false

/-- The JSON encoding of the record followed by a single newline (empty when the
record does not serialize). -/
def ndjsonLine {ε : Type} (env : Env ε) (e : ε) : Bytes :=
  match env.marshal e with
  | .ok js => js ++ [nl]
  | .error _ => []

/-- The bytes a gzip writer in state `s` hands to its underlying writer when the
chunks are written one after the other and the writer is then closed, and nothing
else writes to the underlying writer: the gzip stream of the chunks. -/
def gzipFrom (g : GzipWriter) : g.State → List Bytes → Bytes
  | s, [] => g.close s
  | s, c :: cs => (g.write s c).2 ++ gzipFrom g (g.write s c).1 cs

/-- The gzip stream a freshly reset writer produces for the chunks. -/
def gzipStream (g : GzipWriter) (chunks : List Bytes) : Bytes := gzipFrom g g.init chunks

/-- The effects of the encoding loop on records that all serialize: for each record
one write through the gzip writer and one newline written to the buffer. -/
def okTrace {ε : Type} (env : Env ε) : List ε → List Effect
  | [] => []
  | e :: rest => .GzWrite (ndjsonLine env e) :: .BufWrite [nl] :: okTrace env rest

/-- The writer state and buffer contents after the encoding loop ran over records
that all serialize, from the state `s` and the contents `buf`. -/
def loopEnd {ε : Type} (env : Env ε) : List ε → env.gz.State → Bytes → env.gz.State × Bytes
  | [], s, buf => (s, buf)
  | e :: rest, s, buf =>
    loopEnd env rest (env.gz.write s (ndjsonLine env e)).1
      (buf ++ (env.gz.write s (ndjsonLine env e)).2 ++ [nl])

/-- The calls on the compressor pool and the reset of the compressor. -/
def isPoolUse : Effect → Bool
  | .PoolGet _ => true
  | .PoolPut => true
  | .GzReset => true
  | _ => false

/-- The number of writers in the pool after a run of `Publish` calls, each with its
own library answers and batch. -/
def poolAfter {ε : Type} (bw : Bytes → Bytes → Bytes × Option String) (ctx : Ctx) :
    Nat → List (Env ε × List ε) → Nat
  | pool, [] => pool
  | pool, c :: cs => poolAfter bw ctx (PublishWith bw ctx c.1 pool c.2).pool cs

/-! ## A reference gzip writer and sample records -/

/-- One step of the bitwise CRC-32 (reflected polynomial `0xEDB88320`). -/
def crcStep (c : Nat) : Nat :=
  if c % 2 = 1 then (c / 2) ^^^ 0xEDB88320 else c / 2

/-- CRC-32 update with one byte. -/
def crcByte (c b : Nat) : Nat :=
  crcStep (crcStep (crcStep (crcStep (crcStep (crcStep (crcStep (crcStep (c ^^^ b))))))))

/-- CRC-32 (IEEE) of a byte string. -/
def crc32 (d : Bytes) : Nat := (d.foldl crcByte 0xFFFFFFFF) ^^^ 0xFFFFFFFF

/-- Little-endian encoding of a 32-bit number. -/
def le32 (x : Nat) : Bytes :=
  [x % 256, x / 256 % 256, x / 65536 % 256, x / 16777216 % 256]

/-- The ten-byte gzip header `gzip.Writer` writes: magic, deflate, no flags, no
modification time, no extra flags, operating system unknown. -/
def gzipHeader : Bytes := [0x1f, 0x8b, 8, 0, 0, 0, 0, 0, 0, 255]

/-- A final stored deflate block holding `d` (for `d` shorter than 65536 bytes). -/
def storedBlock (d : Bytes) : Bytes :=
  [1, d.length % 256, d.length / 256 % 256,
   (65535 - d.length) % 256, (65535 - d.length) / 256 % 256] ++ d

/-- A reference gzip writer: the header goes out with the first write, the input
is kept back until `Close`, which emits it as one stored block and the trailer
(CRC-32 and length). -/
def storedGzip : GzipWriter where
  State := Bool × Bytes
  init := (false, [])
  write := fun s p => ((true, s.2 ++ p), if s.1 then [] else gzipHeader)
  close := fun s =>
    (if s.1 then [] else gzipHeader) ++ storedBlock s.2 ++ le32 (crc32 s.2)
      ++ le32 (s.2.length % 4294967296)

/-- A sample record: one that serializes to the given JSON, or one that does not. -/
inductive Sample where
  | good (json : Bytes)
  | bad (why : String)
  deriving DecidableEq, Repr

/-- The JSON encoding of a sample record. -/
def Sample.marshal : Sample → Except String Bytes
  | .good js => .ok js
  | .bad why => .error why

/-- A sample environment over the reference gzip writer. -/
def sampleEnv (closeErr remoteErr : Option String) : Env Sample :=
  { marshal := Sample.marshal, gz := storedGzip, poolIgnored := false,
    closeErr := closeErr, remoteErr := remoteErr }

/-- The JSON text `{}`. -/
def emptyObject : Bytes := [123, 125]

/-! ## The encoding loop -/

theorem serializes_ok {ε : Type} (env : Env ε) (e : ε) (h : serializes env e = true) :
    env.marshal e = .ok ((ndjsonLine env e).dropLast) ∧
      ndjsonLine env e = (ndjsonLine env e).dropLast ++ [nl] := by
  unfold serializes at h
  unfold ndjsonLine
  cases hm : env.marshal e with
  | error c => simp [hm] at h
  | ok js => simp

theorem encodeLoop_ok {ε : Type} (env : Env ε) (n : Nat) (evs : List ε)
    (h : ∀ e ∈ evs, serializes env e = true) (s : env.gz.State) (buf : Bytes) :
    encodeLoop bufferWrite env n evs s buf =
      (okTrace env evs, .ok (loopEnd env evs s buf)) := by
  induction evs generalizing s buf with
  | nil => rfl
  | cons e rest ih =>
    have he := serializes_ok env e (h e (List.mem_cons_self _ _))
    have hr : ∀ x ∈ rest, serializes env x = true :=
      fun x hx => h x (List.mem_cons_of_mem _ hx)
    unfold encodeLoop
    rw [he.1]
    simp only [bufferWrite, ← he.2]
    rw [ih hr]
    simp [okTrace, loopEnd, List.append_assoc]

theorem encodeLoop_fail {ε : Type} (env : Env ε) (n : Nat) (evs : List ε)
    (h : ∃ e ∈ evs, serializes env e = false) (s : env.gz.State) (buf : Bytes) :
    ∃ c, encodeLoop bufferWrite env n evs s buf =
      (okTrace env (evs.takeWhile (serializes env)) ++ [.Dropped n, .Drop],
       .error (.encode c)) := by
  induction evs generalizing s buf with
  | nil => simp at h
  | cons e rest ih =>
    cases hs : serializes env e with
    | false =>
      unfold serializes at hs
      cases hm : env.marshal e with
      | ok js => simp [hm] at hs
      | error c =>
        refine ⟨c, ?_⟩
        unfold encodeLoop
        simp [hm, List.takeWhile, serializes, okTrace]
    | true =>
      have he := serializes_ok env e hs
      have hr : ∃ x ∈ rest, serializes env x = false := by
        obtain ⟨x, hx, hxs⟩ := h
        rcases List.mem_cons.mp hx with rfl | hx
        · rw [hs] at hxs; exact absurd hxs (by decide)
        · exact ⟨x, hx, hxs⟩
      obtain ⟨c, hc⟩ := ih hr (env.gz.write s (ndjsonLine env e)).1
        (buf ++ (env.gz.write s (ndjsonLine env e)).2 ++ [nl])
      refine ⟨c, ?_⟩
      unfold encodeLoop
      rw [he.1]
      simp only [bufferWrite, ← he.2]
      rw [hc]
      simp [List.takeWhile, hs, okTrace]

theorem encodeLoop_no_pool_use {ε : Type} (bw : Bytes → Bytes → Bytes × Option String)
    (env : Env ε) (n : Nat) (evs : List ε)
    (s : env.gz.State) (buf : Bytes) :
    (encodeLoop bw env n evs s buf).1.filter isPoolUse = [] := by
  induction evs generalizing s buf with
  | nil => rfl
  | cons e rest ih =>
    unfold encodeLoop
    cases hm : env.marshal e with
    | error c => simp [isPoolUse]
    | ok js =>
      simp only
      split
      · simp [isPoolUse]
      · simp [isPoolUse, ih]

theorem encodeLoop_no_remote {ε : Type} (bw : Bytes → Bytes → Bytes × Option String)
    (env : Env ε) (n : Nat) (evs : List ε)
    (s : env.gz.State) (buf : Bytes) :
    (encodeLoop bw env n evs s buf).1.filter isRemote = [] := by
  induction evs generalizing s buf with
  | nil => rfl
  | cons e rest ih =>
    unfold encodeLoop
    cases hm : env.marshal e with
    | error c => simp [isRemote]
    | ok js =>
      simp only
      split
      · simp [isRemote]
      · simp [isRemote, ih]

theorem signals_okTrace {ε : Type} (env : Env ε) (evs : List ε) :
    signals (okTrace env evs) = [] := by
  induction evs with
  | nil => rfl
  | cons e rest ih => simpa [okTrace, signals, isSignal] using ih

theorem metrics_okTrace {ε : Type} (env : Env ε) (evs : List ε) :
    metrics (okTrace env evs) = [] := by
  induction evs with
  | nil => rfl
  | cons e rest ih => simpa [okTrace, metrics, isMetric] using ih

theorem remote_okTrace {ε : Type} (env : Env ε) (evs : List ε) :
    (okTrace env evs).filter isRemote = [] := by
  induction evs with
  | nil => rfl
  | cons e rest ih => simpa [okTrace, isRemote] using ih

theorem count_okTrace {ε : Type} (env : Env ε) (evs : List ε) (x : Effect)
    (hx : isSignal x = true) : (okTrace env evs).count x = 0 := by
  induction evs with
  | nil => rfl
  | cons e rest ih =>
    have h1 : Effect.GzWrite (ndjsonLine env e) ≠ x := by
      intro h; rw [← h] at hx; simp [isSignal] at hx
    have h2 : Effect.BufWrite [nl] ≠ x := by
      intro h; rw [← h] at hx; simp [isSignal] at hx
    simp [okTrace, List.count_cons, ih, h1, h2]

theorem gzWrites_append (a b : List Effect) : gzWrites (a ++ b) = gzWrites a ++ gzWrites b := by
  induction a with
  | nil => rfl
  | cons x t ih => cases x <;> simp [gzWrites, ih]

theorem published_append (a b : List Effect) :
    published (a ++ b) = published a ++ published b := by
  induction a with
  | nil => rfl
  | cons x t ih => cases x <;> simp [published, ih]

theorem gzWrites_okTrace {ε : Type} (env : Env ε) (evs : List ε) :
    gzWrites (okTrace env evs) = evs.map (ndjsonLine env) := by
  induction evs with
  | nil => rfl
  | cons e rest ih => simp [okTrace, gzWrites, ih]

theorem published_okTrace {ε : Type} (env : Env ε) (evs : List ε) :
    published (okTrace env evs) = [] := by
  induction evs with
  | nil => rfl
  | cons e rest ih => simp [okTrace, published, ih]

theorem loopEnd_length {ε : Type} (env : Env ε) (evs : List ε) (s : env.gz.State)
    (buf : Bytes) :
    ((loopEnd env evs s buf).2 ++ env.gz.close (loopEnd env evs s buf).1).length =
      buf.length + (gzipFrom env.gz s (evs.map (ndjsonLine env))).length + evs.length := by
  induction evs generalizing s buf with
  | nil => simp [loopEnd, gzipFrom]
  | cons e rest ih =>
    simp only [loopEnd, List.map_cons, gzipFrom]
    rw [ih]
    simp only [List.length_append, List.length_cons, List.length_nil]
    omega

/-! ## Publish -/

theorem length_ne_zero_of_ne_nil {α : Type} (l : List α) (h : l ≠ []) : l.length ≠ 0 := by
  cases l with
  | nil => exact absurd rfl h
  | cons a t => simp

/-- C1: for a non-empty batch of n records that all serialize, with the stream
finalised without error and the message accepted by the remote, `Publish` calls the
observer exactly once, as `NewBatch(n)` (so neither `Dropped` nor `Failed`), issues
exactly one batch signal, `ACK` (so neither `Drop` nor `Retry`), and returns nil. -/
theorem publish_success {ε : Type} (ctx : Ctx) (env : Env ε) (pool : Nat) (events : List ε)
    (hne : events ≠ [])
    (hall : ∀ e ∈ events, serializes env e = true)
    (hclose : env.closeErr = none)
    (hremote : env.remoteErr = none) :
    metrics (Publish ctx env pool events).trace = [.NewBatch events.length] ∧
      signals (Publish ctx env pool events).trace = [.ACK] ∧
      (Publish ctx env pool events).trace.count .ACK = 1 ∧
      (Publish ctx env pool events).err = none := by
  have hlen := length_ne_zero_of_ne_nil events hne
  have hm := metrics_okTrace env events
  have hs := signals_okTrace env events
  have hc := count_okTrace env events .ACK rfl
  unfold metrics at hm
  unfold signals at hs
  simp [Publish, PublishWith, hlen, encodeLoop_ok env _ events hall, hclose, hremote, resultGet,
    metrics, signals, isMetric, isSignal, List.filter_append, hm, hs, hc, List.count_cons]

/-- Witness of C1: three records that serialize, accepted by the remote. -/
theorem publish_success_witness :
    [Sample.good emptyObject, Sample.good [49], Sample.good [50]] ≠ [] ∧
      (∀ e ∈ [Sample.good emptyObject, Sample.good [49], Sample.good [50]],
        serializes (sampleEnv none none) e = true) ∧
      metrics (Publish (.caller false) (sampleEnv none none) 0
        [Sample.good emptyObject, Sample.good [49], Sample.good [50]]).trace = [.NewBatch 3] ∧
      signals (Publish (.caller false) (sampleEnv none none) 0
        [Sample.good emptyObject, Sample.good [49], Sample.good [50]]).trace = [.ACK] ∧
      (Publish (.caller false) (sampleEnv none none) 0
        [Sample.good emptyObject, Sample.good [49], Sample.good [50]]).trace.count .ACK = 1 ∧
      (Publish (.caller false) (sampleEnv none none) 0
        [Sample.good emptyObject, Sample.good [49], Sample.good [50]]).err = none :=
  ⟨by decide, by decide,
   publish_success (.caller false) (sampleEnv none none) 0
     [Sample.good emptyObject, Sample.good [49], Sample.good [50]]
     (by decide) (by decide) rfl rfl⟩

/-- C2: for a batch of n records of which at least one does not serialize, `Publish`
writes through the compressor exactly the records before the first such record,
calls the observer with `NewBatch(n)` and then `Dropped(n)` and nothing else (so no
`Failed`), issues exactly one batch signal, `Drop` (so neither `ACK` nor `Retry`),
makes no call that reaches the remote, and returns the encoding error. -/
theorem publish_serialize_failure {ε : Type} (ctx : Ctx) (env : Env ε) (pool : Nat)
    (events : List ε) (hbad : ∃ e ∈ events, serializes env e = false) :
    gzWrites (Publish ctx env pool events).trace =
        (events.takeWhile (serializes env)).map (ndjsonLine env) ∧
      metrics (Publish ctx env pool events).trace =
        [.NewBatch events.length, .Dropped events.length] ∧
      signals (Publish ctx env pool events).trace = [.Drop] ∧
      (Publish ctx env pool events).trace.filter isRemote = [] ∧
      ∃ c, (Publish ctx env pool events).err = some (.encode c) := by
  have hne : events ≠ [] := by
    rintro rfl
    simp at hbad
  have hlen := length_ne_zero_of_ne_nil events hne
  obtain ⟨c, hc⟩ := encodeLoop_fail env events.length events hbad env.gz.init []
  have hm := metrics_okTrace env (events.takeWhile (serializes env))
  have hs := signals_okTrace env (events.takeWhile (serializes env))
  have hr := remote_okTrace env (events.takeWhile (serializes env))
  have hg := gzWrites_okTrace env (events.takeWhile (serializes env))
  unfold metrics at hm
  unfold signals at hs
  simp [Publish, PublishWith, hlen, hc, metrics, signals, isMetric, isSignal, isRemote,
    List.filter_append, hm, hs, hr, hg, gzWrites_append, gzWrites]

/-- Witness of C2: two records, the second of which does not serialize. -/
theorem publish_serialize_failure_witness :
    (∃ e ∈ [Sample.good emptyObject, Sample.bad "unsupported value"],
        serializes (sampleEnv none none) e = false) ∧
      gzWrites (Publish .background (sampleEnv none none) 1
        [Sample.good emptyObject, Sample.bad "unsupported value"]).trace =
        ([Sample.good emptyObject, Sample.bad "unsupported value"].takeWhile
          (serializes (sampleEnv none none))).map (ndjsonLine (sampleEnv none none)) ∧
      metrics (Publish .background (sampleEnv none none) 1
        [Sample.good emptyObject, Sample.bad "unsupported value"]).trace =
        [.NewBatch 2, .Dropped 2] ∧
      signals (Publish .background (sampleEnv none none) 1
        [Sample.good emptyObject, Sample.bad "unsupported value"]).trace = [.Drop] ∧
      (Publish .background (sampleEnv none none) 1
        [Sample.good emptyObject, Sample.bad "unsupported value"]).trace.filter isRemote = [] ∧
      ∃ c, (Publish .background (sampleEnv none none) 1
        [Sample.good emptyObject, Sample.bad "unsupported value"]).err = some (.encode c) :=
  ⟨by decide,
   publish_serialize_failure .background (sampleEnv none none) 1
     [Sample.good emptyObject, Sample.bad "unsupported value"] (by decide)⟩

/-- C3: for a non-empty batch of n records that all serialize, with the stream
finalised without error and the remote publish failing, `Publish` calls `Retry()`
once, calls the observer with `NewBatch(n)` and then `Failed(n)` and nothing else
(so no `Dropped`), and never calls `Drop()`. -/
theorem publish_remote_failure {ε : Type} (ctx : Ctx) (env : Env ε) (pool : Nat)
    (events : List ε) (cause : String)
    (hne : events ≠ [])
    (hall : ∀ e ∈ events, serializes env e = true)
    (hclose : env.closeErr = none)
    (hremote : env.remoteErr = some cause) :
    (Publish ctx env pool events).trace.count .Retry = 1 ∧
      metrics (Publish ctx env pool events).trace =
        [.NewBatch events.length, .Failed events.length] ∧
      (Publish ctx env pool events).trace.count .Drop = 0 := by
  have hlen := length_ne_zero_of_ne_nil events hne
  have hm := metrics_okTrace env events
  have hr := count_okTrace env events .Retry rfl
  have hd := count_okTrace env events .Drop rfl
  unfold metrics at hm
  simp [Publish, PublishWith, hlen, encodeLoop_ok env _ events hall, hclose, hremote, resultGet,
    metrics, isMetric, List.filter_append, hm, hr, hd, List.count_cons]

/-- Witness of C3: two records that serialize, refused by the remote. -/
theorem publish_remote_failure_witness :
    [Sample.good emptyObject, Sample.good [49]] ≠ [] ∧
      (∀ e ∈ [Sample.good emptyObject, Sample.good [49]],
        serializes (sampleEnv none (some "unavailable")) e = true) ∧
      (Publish .background (sampleEnv none (some "unavailable")) 0
        [Sample.good emptyObject, Sample.good [49]]).trace.count .Retry = 1 ∧
      metrics (Publish .background (sampleEnv none (some "unavailable")) 0
        [Sample.good emptyObject, Sample.good [49]]).trace = [.NewBatch 2, .Failed 2] ∧
      (Publish .background (sampleEnv none (some "unavailable")) 0
        [Sample.good emptyObject, Sample.good [49]]).trace.count .Drop = 0 :=
  ⟨by decide, by decide,
   publish_remote_failure .background (sampleEnv none (some "unavailable")) 0
     [Sample.good emptyObject, Sample.good [49]] "unavailable"
     (by decide) (by decide) rfl rfl⟩

/-- The stream finalisation failing: for a non-empty batch of n records that all
serialize, when `gz.Close()` returns an error `Publish` calls the observer with
`NewBatch(n)` and then `Failed(n)`, issues the one batch signal `Retry`, makes no
call that reaches the remote and returns the compression error. -/
theorem publish_finalise_failure {ε : Type} (ctx : Ctx) (env : Env ε) (pool : Nat)
    (events : List ε) (cause : String)
    (hne : events ≠ [])
    (hall : ∀ e ∈ events, serializes env e = true)
    (hclose : env.closeErr = some cause) :
    signals (Publish ctx env pool events).trace = [.Retry] ∧
      metrics (Publish ctx env pool events).trace =
        [.NewBatch events.length, .Failed events.length] ∧
      (Publish ctx env pool events).trace.filter isRemote = [] ∧
      (Publish ctx env pool events).err = some (.compress cause) := by
  have hlen := length_ne_zero_of_ne_nil events hne
  have hm := metrics_okTrace env events
  have hs := signals_okTrace env events
  have hr := remote_okTrace env events
  unfold metrics at hm
  unfold signals at hs
  simp [Publish, PublishWith, hlen, encodeLoop_ok env _ events hall, hclose,
    metrics, signals, isMetric, isSignal, isRemote, List.filter_append, hm, hs, hr]

/-- C4: for a non-empty batch whose records all serialize, with the stream finalised
without error and the remote publish failing, `Publish` issues two batch signals,
`Retry` and then `ACK`, and returns nil: the batch that is retried is acknowledged
as well. -/
theorem publish_remote_failure_signals {ε : Type} (ctx : Ctx) (env : Env ε) (pool : Nat)
    (events : List ε) (cause : String)
    (hne : events ≠ [])
    (hall : ∀ e ∈ events, serializes env e = true)
    (hclose : env.closeErr = none)
    (hremote : env.remoteErr = some cause) :
    signals (Publish ctx env pool events).trace = [.Retry, .ACK] ∧
      (Publish ctx env pool events).err = none := by
  have hlen := length_ne_zero_of_ne_nil events hne
  have hs := signals_okTrace env events
  unfold signals at hs
  simp [Publish, PublishWith, hlen, encodeLoop_ok env _ events hall, hclose, hremote, resultGet,
    signals, isSignal, List.filter_append, hs]

/-- Witness of C4: one record `{}`, the remote answering with an error. -/
theorem publish_remote_failure_retry_then_ack :
    [Sample.good emptyObject] ≠ [] ∧
      (∀ e ∈ [Sample.good emptyObject],
        serializes (sampleEnv none (some "unavailable")) e = true) ∧
      signals (Publish .background (sampleEnv none (some "unavailable")) 0
        [Sample.good emptyObject]).trace = [.Retry, .ACK] ∧
      (Publish .background (sampleEnv none (some "unavailable")) 0
        [Sample.good emptyObject]).err = none :=
  ⟨by decide, by decide,
   publish_remote_failure_signals .background (sampleEnv none (some "unavailable")) 0
     [Sample.good emptyObject] "unavailable" (by decide) (by decide) rfl rfl⟩

/-- C5: for a non-empty batch whose records all serialize and whose stream is
finalised without error, `Publish` submits exactly one message and writes through
the compressor exactly the NDJSON lines of the records in batch order, but the body
of the message is not the gzip stream of those lines: it is longer by one byte for
every record, the newline written straight into the output buffer. -/
theorem publish_body_not_gzip_stream {ε : Type} (ctx : Ctx) (env : Env ε) (pool : Nat)
    (events : List ε)
    (hne : events ≠ [])
    (hall : ∀ e ∈ events, serializes env e = true)
    (hclose : env.closeErr = none) :
    ∃ body, published (Publish ctx env pool events).trace = [body] ∧
      gzWrites (Publish ctx env pool events).trace = events.map (ndjsonLine env) ∧
      body.length =
        (gzipStream env.gz (events.map (ndjsonLine env))).length + events.length ∧
      body ≠ gzipStream env.gz (events.map (ndjsonLine env)) := by
  have hlen := length_ne_zero_of_ne_nil events hne
  have hL := loopEnd_length env events env.gz.init []
  have hbody : ((loopEnd env events env.gz.init []).2 ++
      env.gz.close (loopEnd env events env.gz.init []).1).length =
      (gzipStream env.gz (events.map (ndjsonLine env))).length + events.length := by
    rw [hL]; simp [gzipStream]
  refine ⟨(loopEnd env events env.gz.init []).2 ++
      env.gz.close (loopEnd env events env.gz.init []).1, ?_, ?_, hbody, ?_⟩
  · cases hr : env.remoteErr <;>
      simp [Publish, PublishWith, hlen, encodeLoop_ok env _ events hall, hclose, hr, resultGet,
        published_append, published, published_okTrace]
  · cases hr : env.remoteErr <;>
      simp [Publish, PublishWith, hlen, encodeLoop_ok env _ events hall, hclose, hr, resultGet,
        gzWrites_append, gzWrites, gzWrites_okTrace]
  · intro h
    rw [h] at hbody
    omega

/-- Witness of C5: one record `{}`; the body has a raw newline right after the
gzip header, the gzip stream of the line has none. -/
theorem publish_body_not_gzip_stream_witness :
    [Sample.good emptyObject] ≠ [] ∧
      (∀ e ∈ [Sample.good emptyObject], serializes (sampleEnv none none) e = true) ∧
      published (Publish .background (sampleEnv none none) 0 [Sample.good emptyObject]).trace =
        [[31, 139, 8, 0, 0, 0, 0, 0, 0, 255, 10,
          1, 3, 0, 252, 255, 123, 125, 10, 6, 176, 161, 221, 3, 0, 0, 0]] ∧
      gzipStream storedGzip [[123, 125, 10]] =
        [31, 139, 8, 0, 0, 0, 0, 0, 0, 255,
          1, 3, 0, 252, 255, 123, 125, 10, 6, 176, 161, 221, 3, 0, 0, 0] ∧
      ∃ body, published (Publish .background (sampleEnv none none) 0
          [Sample.good emptyObject]).trace = [body] ∧
        gzWrites (Publish .background (sampleEnv none none) 0
          [Sample.good emptyObject]).trace =
          [Sample.good emptyObject].map (ndjsonLine (sampleEnv none none)) ∧
        body.length =
          (gzipStream (sampleEnv none none).gz
            ([Sample.good emptyObject].map (ndjsonLine (sampleEnv none none)))).length
            + [Sample.good emptyObject].length ∧
        body ≠ gzipStream (sampleEnv none none).gz
          ([Sample.good emptyObject].map (ndjsonLine (sampleEnv none none))) :=
  ⟨by decide, by decide, by decide, by decide,
   publish_body_not_gzip_stream .background (sampleEnv none none) 0
     [Sample.good emptyObject] (by decide) (by decide) rfl⟩

/-! ## Connect and Close -/

/-- C6, as stated, fails when the first `Connect` fails: on a client without a
connection handle, a `Connect` whose dial fails keeps no handle, so the `Connect` that
follows it, with no `Close` in between, dials again: `NewClient` is called twice. -/
theorem connect_twice_dials_twice :
    (Connect (some "unavailable") sampleFreshNet sampleDisconnected).1 =
        some (.createClient "unavailable") ∧
      (Connect none (Connect (some "unavailable") sampleFreshNet sampleDisconnected).2.2
        (Connect (some "unavailable") sampleFreshNet sampleDisconnected).2.1).2.2.dials = 2 ∧
      ¬ (Connect none (Connect (some "unavailable") sampleFreshNet sampleDisconnected).2.2
        (Connect (some "unavailable") sampleFreshNet sampleDisconnected).2.1).2.2.dials
          ≤ sampleFreshNet.dials + 1 := by
  decide

/-- C6, amended: on a client that holds a connection handle `Connect` returns nil, does
not call `NewClient` and changes neither the client nor the network; so of two
`Connect` calls in a row, when the first returns nil the second changes nothing and
`NewClient` was called at most once, while when the first returns an error the client
is as before, without a handle, and the second calls `NewClient` again, twice in all;
in both cases `NewClient` is called at most twice and at most one connection is
established. -/
theorem connect_idempotent (d1 d2 : Option String) (net : Net) (p : pubsubClient)
    (h : Client) :
    Connect d1 net { p with client := some h } = (none, { p with client := some h }, net) ∧
      ((Connect d1 net p).1 = none →
        Connect d2 (Connect d1 net p).2.2 (Connect d1 net p).2.1 =
            (none, (Connect d1 net p).2.1, (Connect d1 net p).2.2) ∧
          (Connect d2 (Connect d1 net p).2.2 (Connect d1 net p).2.1).2.2.dials
            ≤ net.dials + 1) ∧
      ((Connect d1 net p).1 ≠ none →
        (Connect d1 net p).2.1 = p ∧ p.client = none ∧
          (Connect d2 (Connect d1 net p).2.2 (Connect d1 net p).2.1).2.2.dials
            = net.dials + 2) ∧
      (Connect d2 (Connect d1 net p).2.2 (Connect d1 net p).2.1).2.2.dials ≤ net.dials + 2 ∧
      (Connect d2 (Connect d1 net p).2.2 (Connect d1 net p).2.1).2.2.nextId
        ≤ net.nextId + 1 := by
  refine ⟨rfl, ?_, ?_, ?_, ?_⟩ <;>
    cases hp : p.client <;> cases d1 <;> cases d2 <;> simp [Connect, NewClient, hp]

/-- C7: on a client that holds the connection `h` and a topic, `Close` returns the
teardown error of the connection and leaves the client without a connection handle,
whatever that error is; a following `Connect` dials again, and when that dial
succeeds the client holds a connection that is not `h` and a topic bound to this
new connection. -/
theorem close_then_connect (teardown : Option String) (net : Net) (p : pubsubClient)
    (h : Client) (t : Topic)
    (hc : p.client = some h) (ht : p.topic = some t) (hid : h.id < net.nextId) :
    ∃ p1 n1, Close teardown net p = some (teardown, p1, n1) ∧
      p1.client = none ∧
      (∀ d, (Connect d n1 p1).2.2.dials = n1.dials + 1) ∧
      ∃ c, Connect none n1 p1 =
          (none, { p1 with client := some c, topic := some (c.Topic p.config.Topic) },
           { n1 with dials := n1.dials + 1, nextId := n1.nextId + 1 }) ∧
        c.id = n1.nextId ∧ c.id ≠ h.id ∧
        (c.Topic p.config.Topic).conn = c.id := by
  refine ⟨{ p with client := none },
    { net with stopped := t.conn :: net.stopped, closed := h.id :: net.closed },
    ?_, rfl, ?_, ?_⟩
  · simp [Close, hc, ht]
  · intro d
    cases d <;> simp [Connect, NewClient]
  · refine ⟨Client.mk net.nextId p.config.ProjectID (connectOpts p.config), ?_, rfl, ?_, rfl⟩
    · simp [Connect, NewClient, Client.Topic]
    · simp only
      omega

/-- Witness of C7: a connected client whose teardown fails. -/
theorem close_then_connect_witness :
    sampleConnected.client = some sampleClient ∧
      sampleConnected.topic = some (sampleClient.Topic "logs") ∧
      sampleClient.id < sampleNet.nextId ∧
      ∃ p1 n1, Close (some "rpc error") sampleNet sampleConnected =
          some (some "rpc error", p1, n1) ∧
        p1.client = none ∧
        (∀ d, (Connect d n1 p1).2.2.dials = n1.dials + 1) ∧
        ∃ c, Connect none n1 p1 =
            (none, { p1 with client := some c,
                             topic := some (c.Topic sampleConnected.config.Topic) },
             { n1 with dials := n1.dials + 1, nextId := n1.nextId + 1 }) ∧
          c.id = n1.nextId ∧ c.id ≠ sampleClient.id ∧
          (c.Topic sampleConnected.config.Topic).conn = c.id :=
  ⟨rfl, rfl, by decide,
   close_then_connect (some "rpc error") sampleNet sampleConnected sampleClient
     (sampleClient.Topic "logs") rfl rfl (by decide)⟩

/-! ## Publish: empty batch, pool, context -/

/-- C8: on an empty batch `Publish` makes exactly one call, `NewBatch(0)` (so no
publish, no use of the pool, none of `ACK`, `Retry`, `Drop`, `Dropped`, `Failed`),
returns nil and leaves the pool as it was. -/
theorem publish_empty {ε : Type} (ctx : Ctx) (env : Env ε) (pool : Nat) :
    Publish ctx env pool ([] : List ε) =
      { trace := [.NewBatch 0], err := none, pool := pool } := by
  rfl

theorem publish_trace_shape {ε : Type} (bw : Bytes → Bytes → Bytes × Option String)
    (ctx : Ctx) (env : Env ε) (pool : Nat) (e : ε) (rest : List ε) :
    ∃ mid, (PublishWith bw ctx env pool (e :: rest)).trace =
        .NewBatch (rest.length + 1) :: .PoolGet (decide (pool = 0) || env.poolIgnored)
          :: .GzReset :: (mid ++ [.PoolPut]) ∧
      mid.filter isPoolUse = [] := by
  have hg : (poolGet pool env.poolIgnored).2 = (decide (pool = 0) || env.poolIgnored) := by
    unfold poolGet
    by_cases h0 : pool = 0 <;> cases hi : env.poolIgnored <;> simp [h0]
  have hl := encodeLoop_no_pool_use bw env (rest.length + 1) (e :: rest) env.gz.init []
  unfold PublishWith
  simp only [List.length_cons, Nat.add_one_ne_zero, if_false, hg]
  cases hloop : (encodeLoop bw env (rest.length + 1) (e :: rest) env.gz.init []).2 with
  | error err =>
    exact ⟨(encodeLoop bw env (rest.length + 1) (e :: rest) env.gz.init []).1, by simp, hl⟩
  | ok sb =>
    cases hclose : env.closeErr with
    | some c =>
      refine ⟨(encodeLoop bw env (rest.length + 1) (e :: rest) env.gz.init []).1 ++
        [.GzClose, .Failed (rest.length + 1), .Retry], by simp, ?_⟩
      simp [List.filter_append, hl, isPoolUse]
    | none =>
      cases hrem : env.remoteErr with
      | some c =>
        refine ⟨(encodeLoop bw env (rest.length + 1) (e :: rest) env.gz.init []).1 ++
          [.GzClose, .TopicPublish .background (sb.2 ++ env.gz.close sb.1),
           .ResultGet .background, .Failed (rest.length + 1), .Retry, .ACK], ?_, ?_⟩
        · simp [resultGet, hrem]
        · simp [List.filter_append, hl, isPoolUse]
      | none =>
        refine ⟨(encodeLoop bw env (rest.length + 1) (e :: rest) env.gz.init []).1 ++
          [.GzClose, .TopicPublish .background (sb.2 ++ env.gz.close sb.1),
           .ResultGet .background, .ACK], ?_, ?_⟩
        · simp [resultGet, hrem]
        · simp [List.filter_append, hl, isPoolUse]

theorem publish_pool {ε : Type} (bw : Bytes → Bytes → Bytes × Option String)
    (ctx : Ctx) (env : Env ε) (pool : Nat) (e : ε) (rest : List ε) :
    (PublishWith bw ctx env pool (e :: rest)).pool =
      pool + (if pool = 0 ∨ env.poolIgnored = true then 1 else 0) := by
  have hg : poolPut (poolGet pool env.poolIgnored).1 =
      pool + (if pool = 0 ∨ env.poolIgnored = true then 1 else 0) := by
    unfold poolGet poolPut
    by_cases h : pool = 0 ∨ env.poolIgnored = true
    · simp [h]
    · have h0 : pool ≠ 0 := fun h0 => h (Or.inl h0)
      simp only [h, if_false]
      omega
  unfold PublishWith
  simp only [List.length_cons, Nat.add_one_ne_zero, if_false]
  cases hloop : (encodeLoop bw env (rest.length + 1) (e :: rest) env.gz.init []).2 with
  | error err => exact hg
  | ok sb =>
    cases hclose : env.closeErr with
    | some c => exact hg
    | none =>
      cases hrem : env.remoteErr with
      | some c => simpa [resultGet, hrem] using hg
      | none => simpa [resultGet, hrem] using hg

theorem publish_pool_bounds {ε : Type} (bw : Bytes → Bytes → Bytes × Option String)
    (ctx : Ctx) (env : Env ε) (pool : Nat) (events : List ε) :
    pool ≤ (PublishWith bw ctx env pool events).pool ∧
      (PublishWith bw ctx env pool events).pool ≤ pool + 1 := by
  cases events with
  | nil => simp [PublishWith]
  | cons e rest =>
    rw [publish_pool]
    split <;> omega

theorem poolAfter_bounds {ε : Type} (bw : Bytes → Bytes → Bytes × Option String)
    (ctx : Ctx) (calls : List (Env ε × List ε)) (pool : Nat) :
    pool ≤ poolAfter bw ctx pool calls ∧
      poolAfter bw ctx pool calls ≤ pool + calls.length := by
  induction calls generalizing pool with
  | nil => simp [poolAfter]
  | cons c cs ih =>
    have h1 := publish_pool_bounds bw ctx c.1 pool c.2
    have h2 := ih (PublishWith bw ctx c.1 pool c.2).pool
    simp only [poolAfter, List.length_cons]
    omega

/-- The delimiter write failing: on one record that serializes, with a buffer whose
write fails, the batch is reported as failed and retried, nothing reaches the
remote, the newline error is returned and the compressor is put back. -/
theorem publish_delimiter_failure :
    PublishWith failingWrite .background (sampleEnv none none) 1 [Sample.good emptyObject] =
      { trace := [.NewBatch 1, .PoolGet false, .GzReset, .GzWrite [123, 125, 10],
                  .BufWrite [10], .Failed 1, .Retry, .PoolPut],
        err := some (.newline "short write"), pool := 1 } := by
  decide

/-- C9, as stated, fails on an empty pool: one `Publish` call that fails on a
record that does not serialize leaves one compressor in a pool that held none,
and so do two such calls in a row. -/
theorem publish_failure_fills_empty_pool :
    (Publish .background (sampleEnv none none) 0 [Sample.bad "unsupported value"]).err =
        some (.encode "unsupported value") ∧
      (Publish .background (sampleEnv none none) 0 [Sample.bad "unsupported value"]).pool = 1 ∧
      ¬ poolAfter bufferWrite .background 0
        [(sampleEnv none none, [Sample.bad "unsupported value"]),
         (sampleEnv none none, [Sample.bad "unsupported value"])] = 0 := by
  decide

/-- C9, amended: whatever the buffer answers to a write (so also when the write of the
delimiter fails), a `Publish` call on a non-empty batch takes a compressor from the
pool right after `NewBatch`, resets it before anything else happens, and puts it
back exactly once, as its last effect, on every path; the compressor is a new one
exactly when the pool is empty or `Get` ignores the pool, and then the pool holds
one compressor more after the call, else as many as before; so over any run of
`Publish` calls the number of compressors in the pool never goes down and goes up
by at most one a call. -/
theorem publish_pool_balance {ε : Type} (bw : Bytes → Bytes → Bytes × Option String)
    (ctx : Ctx) (env : Env ε) (pool : Nat) (e : ε) (rest : List ε)
    (calls : List (Env ε × List ε)) :
    (∃ mid, (PublishWith bw ctx env pool (e :: rest)).trace =
        .NewBatch (rest.length + 1) :: .PoolGet (decide (pool = 0) || env.poolIgnored)
          :: .GzReset :: (mid ++ [.PoolPut]) ∧
      mid.filter isPoolUse = []) ∧
      (PublishWith bw ctx env pool (e :: rest)).pool =
        pool + (if pool = 0 ∨ env.poolIgnored = true then 1 else 0) ∧
      pool ≤ poolAfter bw ctx pool calls ∧
      poolAfter bw ctx pool calls ≤ pool + calls.length :=
  ⟨publish_trace_shape bw ctx env pool e rest, publish_pool bw ctx env pool e rest,
   poolAfter_bounds bw ctx calls pool⟩

/-- C10, as stated, fails: with the caller's context canceled during the wait and
the remote accepting the message, `Publish` acknowledges the batch and does not
retry it, and both remote calls were made with the background context. -/
theorem publish_canceled_context_acks :
    signals (Publish (.caller true) (sampleEnv none none) 0
        [Sample.good emptyObject]).trace = [.ACK] ∧
      (Publish (.caller true) (sampleEnv none none) 0
        [Sample.good emptyObject]).trace.count .Retry = 0 ∧
      (Publish (.caller true) (sampleEnv none none) 0
        [Sample.good emptyObject]).trace.filter isRemote =
        [.TopicPublish .background
            [31, 139, 8, 0, 0, 0, 0, 0, 0, 255, 10,
              1, 3, 0, 252, 255, 123, 125, 10, 6, 176, 161, 221, 3, 0, 0, 0],
         .ResultGet .background] := by
  decide

theorem remote_calls_background {ε : Type} (ctx : Ctx) (env : Env ε) (pool : Nat)
    (events : List ε) :
    ∃ bodies : List Bytes, (Publish ctx env pool events).trace.filter isRemote =
      bodies.flatMap (fun b => [.TopicPublish .background b, .ResultGet .background]) := by
  cases events with
  | nil => exact ⟨[], rfl⟩
  | cons e rest =>
    have hl := encodeLoop_no_remote bufferWrite env (rest.length + 1) (e :: rest)
      env.gz.init []
    unfold Publish PublishWith
    simp only [List.length_cons, Nat.add_one_ne_zero, if_false]
    cases hloop : (encodeLoop bufferWrite env (rest.length + 1) (e :: rest)
      env.gz.init []).2 with
    | error err =>
      exact ⟨[], by simp [List.filter_append, hl, isRemote]⟩
    | ok sb =>
      cases hclose : env.closeErr with
      | some c => exact ⟨[], by simp [List.filter_append, hl, isRemote]⟩
      | none =>
        cases hrem : env.remoteErr with
        | some c =>
          exact ⟨[sb.2 ++ env.gz.close sb.1],
            by simp [List.filter_append, hl, isRemote, resultGet, hrem]⟩
        | none =>
          exact ⟨[sb.2 ++ env.gz.close sb.1],
            by simp [List.filter_append, hl, isRemote, resultGet, hrem]⟩

/-- C10, amended: `Publish` does not consult the context it is given: its effects,
its error and the pool are those of a call with the background context, and every
call that reaches the remote (`topic.Publish`, the wait for its result) is made
with the background context, which is never canceled. -/
theorem publish_context_unused {ε : Type} (ctx : Ctx) (env : Env ε) (pool : Nat)
    (events : List ε) :
    Publish ctx env pool events = Publish .background env pool events ∧
      ∃ bodies : List Bytes, (Publish ctx env pool events).trace.filter isRemote =
        bodies.flatMap (fun b => [.TopicPublish .background b, .ResultGet .background]) :=
  ⟨rfl, remote_calls_background ctx env pool events⟩

end Pubsuboutput
